import Mathlib

/-!
Verification of the fan-daemon decision engine (`fan-daemon.py`).

The embedding below translates the pure decision logic of the daemon —
the `FanSpeed` mapping engine (`get`, `lookup`, curve parsing) and the
`FanDaemon` control-loop computation (`_compute_zone_speeds`,
`_check_mappings`, the failure paths of `control_loop` / `run`) — into
executable Lean definitions.  Python floats are modelled as `ℚ`; Python
dicts as association lists with first-match lookup and
replace-or-append update; a raised exception is modelled as the
`Except.error` branch.  Logging, sleeping and the IPMI command channel
are outside the decision logic and are represented only by their
results (a fail-safe flag, write success booleans).
-/

/-- A curve point `(threshold_temp, fan_speed_percent, hysteresis_celsius)`;
`hyst = none` means "use the engine default" (source line 43). -/
structure MappingPoint where
  temp : ℚ
  speed : ℚ
  hyst : Option ℚ
deriving DecidableEq, Repr

/-- `(device_type, device_idx, zone)`; `-1` means "all" (source line 44). -/
abbrev MappingKey := String × Int × Int

/-- A temperature→speed curve: the ordered tuple of points. -/
abbrev Curve := List MappingPoint

/-- The `speeds` dict: key → curve, where value `none` is the
disabled-marker (`None` mapping in the source). -/
abbrev SpeedTable := List (MappingKey × Option Curve)

/-- The `FanDaemon.active_thresholds` dict. -/
abbrev AThr := List (MappingKey × ℚ)

/-- The reading set produced by `get_temps`:
device class → readings or `None` (unavailable). -/
abbrev Temps := List (String × Option (List Int))

/-- Python dict read `d.get(k)`: first matching key. -/
def assocGet {α β : Type} [DecidableEq α] : List (α × β) → α → Option β
  | [], _ => none
  | (k', v) :: rest, k => if k' = k then some v else assocGet rest k

/-- Python dict write `d[k] = v`: replace the existing binding, else append. -/
def assocSet {α β : Type} [DecidableEq α] : List (α × β) → α → β → List (α × β)
  | [], k, v => [(k, v)]
  | (k', v') :: rest, k, v =>
      if k' = k then (k, v) :: rest else (k', v') :: assocSet rest k v

instance {ε α : Type} [DecidableEq ε] [DecidableEq α] : DecidableEq (Except ε α) :=
  fun a b =>
    match a, b with
    | .ok x, .ok y => if h : x = y then .isTrue (by rw [h]) else .isFalse (by simp [h])
    | .error x, .error y => if h : x = y then .isTrue (by rw [h]) else .isFalse (by simp [h])
    | .ok _, .error _ => .isFalse (by simp)
    | .error _, .ok _ => .isFalse (by simp)

/-- Rational subtraction, written out through `mkRat` so that it evaluates
inside the kernel (the library subtraction on `ℚ` is irreducible); proved
equal to `a - b` in `ratSub_eq` below. -/
def ratSub (a b : ℚ) : ℚ :=
  mkRat (a.num * (b.den : Int) - b.num * (a.den : Int)) (a.den * b.den)

/-- Python `int(q)`: truncation toward zero (source line 770, `int(spd)`). -/
def pyInt (q : ℚ) : Int := q.num.tdiv (q.den : Int)

/-- `FanSpeed.Config` (source lines 257-266): default hysteresis and the
mapping table. -/
structure FanSpeed.Config where
  hysteresis_celsius : ℚ
  speeds : SpeedTable
deriving DecidableEq, Repr

/-- The four probe keys of `FanSpeed.get`, in precedence order
(source lines 424-429). -/
def probeKeys (device_type : String) (device_idx zone : Int) : List MappingKey :=
  [(device_type, device_idx, zone), (device_type, device_idx, -1),
   (device_type, -1, zone), (device_type, -1, -1)]

/-- The probe loop body of `FanSpeed.get` (source lines 424-434): for each
key in order, if the key is present and its mapping is not the
disabled-marker, return it; otherwise — key absent *or* entry disabled —
move on to the next key. -/
def firstEnabled (speeds : SpeedTable) : List MappingKey → Option (Curve × MappingKey)
  | [] => none
  | k :: ks =>
      match assocGet speeds k with
      | some (some mapping) => some (mapping, k)
      | _ => firstEnabled speeds ks

/-- `FanSpeed.get` (source lines 413-434): precedence lookup
`deviceN-zoneM > deviceN-zone > device-zoneM > device-zone`. -/
def FanSpeed.get (config : FanSpeed.Config) (device_type : String)
    (device_idx zone : Int) : Option (Curve × MappingKey) :=
  firstEnabled config.speeds (probeKeys device_type device_idx zone)

/-- The `normal_idx` accumulator loop of `FanSpeed.lookup`
(source lines 450-453): index of the highest point with `temp >= t`,
`-1` when temp is below every threshold. -/
def normalIdxAux (temp : ℚ) : List MappingPoint → Nat → Int → Int
  | [], _, acc => acc
  | p :: rest, i, acc =>
      normalIdxAux temp rest (i + 1) (if p.temp ≤ temp then (i : Int) else acc)

/-- `normal_idx` of `FanSpeed.lookup` (source lines 450-453). -/
def normalIdx (temp : ℚ) (mapping : List MappingPoint) : Int :=
  normalIdxAux temp mapping 0 (-1)

/-- The `active_idx` loop of `FanSpeed.lookup` (source lines 466-470):
first index whose threshold equals `active_threshold`, `-1` if absent. -/
def activeIdxAux (a : ℚ) : List MappingPoint → Nat → Int
  | [], _ => -1
  | p :: rest, i => if p.temp = a then (i : Int) else activeIdxAux a rest (i + 1)

/-- `active_idx` of `FanSpeed.lookup` (source lines 466-470). -/
def activeIdx (a : ℚ) (mapping : List MappingPoint) : Int :=
  activeIdxAux a mapping 0

/-- `FanSpeed.lookup` (source lines 436-484): piecewise-constant lookup
with falling-edge hysteresis.  `none` models the `IndexError` the source
raises on an empty mapping (`mapping[0]`). -/
def FanSpeed.lookup (config : FanSpeed.Config) (temp : ℚ)
    (mapping : List MappingPoint) (active_threshold : Option ℚ) :
    Option (ℚ × ℚ) :=
  let nIdx := normalIdx temp mapping
  if nIdx < 0 then
    -- Below all thresholds, use first speed (source lines 455-457)
    (mapping.get? 0).map fun p => (p.speed, p.temp)
  else
    (mapping.get? nIdx.toNat).bind fun normalPt =>
      match active_threshold with
      | none => some (normalPt.speed, normalPt.temp)
      | some a =>
          let aIdx := activeIdx a mapping
          if aIdx < 0 ∨ nIdx ≥ aIdx then
            -- Rising or same threshold, use normal (source lines 472-474)
            some (normalPt.speed, normalPt.temp)
          else
            (mapping.get? aIdx.toNat).bind fun activePt =>
              let hyst := activePt.hyst.getD config.hysteresis_celsius
              if temp < ratSub activePt.temp hyst then
                some (normalPt.speed, normalPt.temp)
              else
                some (activePt.speed, activePt.temp)

/-- Uppercase of a device name, `name.upper()` in the source. -/
def upperName (s : String) : String := ⟨s.data.map Char.toUpper⟩

/-- One candidate row of `_compute_zone_speeds`
(source lines 751-764): `(spd, trigger, temp, dev_name, dev_idx, new_thresh)`. -/
structure Candidate where
  spd : ℚ
  trigger : String
  temp : Int
  devName : String
  devIdx : Int
  newThresh : ℚ
deriving DecidableEq, Repr

/-- One entry of the `results` dict of `_compute_zone_speeds`
(source line 770): `(int(spd), trigger, temp)`. -/
structure ZoneResult where
  speed : Int
  trigger : String
  temp : Int
deriving DecidableEq, Repr

/-- `max(candidates, key=lambda x: x[0])` (source lines 766-768): Python
`max` keeps the first maximal element, replacing only on strictly
greater key. -/
def maxBySpd : Candidate → List Candidate → Candidate
  | c, [] => c
  | c, d :: rest => maxBySpd (if c.spd < d.spd then d else c) rest

/-- The inner loop of `_compute_zone_speeds` for one device class
(source lines 753-764), over the enumerated readings of that class:
skip indices with no resolved curve, call `lookup` with the previous
latch for `(name, idx, zone)`, and collect candidates.  `Except.error`
models the `IndexError` a `lookup` on an empty curve raises. -/
def candidatesOfDevice (speed : FanSpeed.Config) (active : AThr) (zone : Int)
    (name : String) : List (Nat × Int) → Except Unit (List Candidate)
  | [] => .ok []
  | (idx, temp) :: rest =>
      match FanSpeed.get speed name (idx : Int) zone with
      | none => candidatesOfDevice speed active zone name rest
      | some (mapping, _) =>
          let key : MappingKey := (name, (idx : Int), zone)
          match FanSpeed.lookup speed (temp : ℚ) mapping (assocGet active key) with
          | none => .error ()
          | some (spd, newThresh) =>
              (candidatesOfDevice speed active zone name rest).map
                (⟨spd, upperName name ++ toString idx, temp, name, (idx : Int), newThresh⟩ :: ·)

/-- The candidate list of `_compute_zone_speeds` for one zone
(source lines 752-764): iterate the reading set in order (unavailable
classes contribute nothing, `values or ()`), enumerating each class's
readings. -/
def zoneCandidates (speed : FanSpeed.Config) (active : AThr) :
    Temps → Int → Except Unit (List Candidate)
  | [], _ => .ok []
  | (name, values) :: rest, zone => do
      let cs ← candidatesOfDevice speed active zone name (values.getD []).enum
      let csRest ← zoneCandidates speed active rest zone
      .ok (cs ++ csRest)

/-- The per-zone body of `_compute_zone_speeds` (source lines 750-773):
with candidates, pick the max-speed winner, latch *only the winner's*
`(dev_name, dev_idx, zone)` to its `new_thresh` and record
`(int(spd), trigger, temp)`; with no candidates, record `(100, "none", 0)`.
An error (raised `IndexError`) carries the latch state at the raise. -/
def processZone (speed : FanSpeed.Config) (active : AThr) (temps : Temps)
    (zone : Int) : Except AThr (AThr × ZoneResult) :=
  match zoneCandidates speed active temps zone with
  | .error () => .error active
  | .ok [] => .ok (active, ⟨100, "none", 0⟩)
  | .ok (c :: cs) =>
      let w := maxBySpd c cs
      .ok (assocSet active (w.devName, w.devIdx, zone) w.newThresh,
           ⟨pyInt w.spd, w.trigger, w.temp⟩)

/-- The zone loop of `FanDaemon._compute_zone_speeds` (source lines 744-774),
threading the mutable `active_thresholds` and the `results` dict through
the zones in order. -/
def computeZoneSpeedsAux (speed : FanSpeed.Config) (temps : Temps) :
    List Int → AThr → List (Int × ZoneResult) →
    Except AThr (AThr × List (Int × ZoneResult))
  | [], active, acc => .ok (active, acc)
  | z :: rest, active, acc =>
      match processZone speed active temps z with
      | .error a => .error a
      | .ok (a1, r) => computeZoneSpeedsAux speed temps rest a1 (assocSet acc z r)

/-- `FanDaemon._compute_zone_speeds` (source lines 744-774).  Returns the
updated latch map together with `{zone: (speed, trigger, temp)}`; an
`Except.error` is an exception escaping the computation, carrying the
latch map as mutated so far. -/
def compute_zone_speeds (speed : FanSpeed.Config) (zones : List Int)
    (active : AThr) (temps : Temps) :
    Except AThr (AThr × List (Int × ZoneResult)) :=
  computeZoneSpeedsAux speed temps zones active []

/-- The hardware collaborator as seen by one control-loop iteration:
the zone list, the `get_temps()` result (`none` = total acquisition
failure) and the success of each `set_zone_speed(zone, percent)` call. -/
structure HardwareModel where
  zones : List Int
  temps : Option Temps
  writeOk : Int → Int → Bool

/-- Result of one `control_loop` call: the final latch map, whether
`set_fail_safe` was invoked, and the zone writes successfully issued;
`raised` is an exception escaping `control_loop` into `run`'s handler. -/
inductive LoopOutcome where
  | ok (active : AThr) (failSafe : Bool) (commanded : List (Int × Int))
  | raised (active : AThr)
deriving DecidableEq, Repr

/-- The write loop of `control_loop` (source lines 592-597): command each
zone in order; on the first failed write, call `set_fail_safe` and clear
all latch state. -/
def writeZones (hw : HardwareModel) :
    List (Int × ZoneResult) → AThr → List (Int × Int) → LoopOutcome
  | [], active, cmds => .ok active false cmds
  | (z, r) :: rest, active, cmds =>
      if hw.writeOk z r.speed then
        writeZones hw rest active (cmds ++ [(z, r.speed)])
      else
        .ok [] true cmds

/-- `FanDaemon.control_loop` (source lines 580-597; the logging tail,
lines 599-621, has no effect on the modelled state): acquisition failure
⇒ fail-safe and clear the latch; otherwise compute zone speeds and write
them, any write failure ⇒ fail-safe and clear the latch. -/
def control_loop (hw : HardwareModel) (speed : FanSpeed.Config)
    (active : AThr) : LoopOutcome :=
  match hw.temps with
  | none => .ok [] true []
  | some temps =>
      match compute_zone_speeds speed hw.zones active temps with
      | .error a => .raised a
      | .ok (a1, zone_speeds) => writeZones hw zone_speeds a1 []

/-- One iteration of the `while self.running` body of `FanDaemon.run`
(source lines 569-574): `control_loop` under `try/except`, where the
handler logs and calls `set_fail_safe` — and leaves `active_thresholds`
untouched.  Returns (latch map, whether `set_fail_safe` was called). -/
def runIteration (hw : HardwareModel) (speed : FanSpeed.Config)
    (active : AThr) : AThr × Bool :=
  match control_loop hw speed active with
  | .ok a fs _ => (a, fs)
  | .raised a => (a, true)

/-- The device types referenced by enabled (non-`None`) mappings, the
`mapping_types` set of `_check_mappings` (source lines 731-735). -/
def mappingTypes (speeds : SpeedTable) : List String :=
  (speeds.filterMap fun km => if km.2.isSome then some km.1.1 else none).dedup

/-- Python string comparison: lexicographic on code points. -/
def strLe (a b : String) : Prop := a.data ≤ b.data

instance : DecidableRel strLe := fun a b => inferInstanceAs (Decidable (a.data ≤ b.data))

/-- `FanDaemon._check_mappings` (source lines 723-742): the referenced
device types, in sorted order, that are not *keys* of the reading dict
(`device_type not in temps` — a key present with a `None` reading counts
as present). -/
def check_mappings (speeds : SpeedTable) (temps : Temps) : List String :=
  ((mappingTypes speeds).insertionSort strLe).filter
    fun dt => ¬ temps.any fun kv => kv.1 = dt

/-- The startup gate of `FanDaemon.run` (source lines 555-566): proceed
to the control loop only if startup `get_temps` succeeds and
`_check_mappings` reports nothing missing; otherwise `sys.exit(1)`. -/
def startupOk (hw : HardwareModel) (speeds : SpeedTable) : Bool :=
  match hw.temps with
  | none => false
  | some temps => (check_mappings speeds temps).isEmpty

/-- "No (device_class, index) present in the reading set resolves to an
enabled curve for this zone": every enumerated reading of every class
has no `FanSpeed.get` result (unavailable classes enumerate nothing). -/
def noneResolves (speed : FanSpeed.Config) (temps : Temps) (zone : Int) : Prop :=
  ∀ nv ∈ temps, ∀ iv ∈ (nv.2.getD ([] : List Int)).enum,
    FanSpeed.get speed nv.1 (iv.1 : Int) zone = none

instance (speed : FanSpeed.Config) (temps : Temps) (zone : Int) :
    Decidable (noneResolves speed temps zone) :=
  inferInstanceAs (Decidable (∀ nv ∈ temps, ∀ iv ∈ (nv.2.getD ([] : List Int)).enum,
    FanSpeed.get speed nv.1 (iv.1 : Int) zone = none))

/-- The whitespace characters Python `str.strip()` removes (ASCII). -/
def isPySpace (c : Char) : Bool :=
  c = ' ' ∨ c = '\t' ∨ c = '\n' ∨ c = '\r' ∨ c = '\x0b' ∨ c = '\x0c'

/-- Python `str.strip()` on a character list. -/
def strip (cs : List Char) : List Char :=
  ((cs.dropWhile isPySpace).reverse.dropWhile isPySpace).reverse

/-- Python `str.split(sep)` for a one-character separator:
`"".split(",") = [""]`, and empty fields are kept. -/
def splitChar (sep : Char) : List Char → List (List Char)
  | [] => [[]]
  | c :: cs =>
      let r := splitChar sep cs
      if c = sep then [] :: r
      else
        match r with
        | [] => [[c]]
        | g :: gs => (c :: g) :: gs

/-- Value of a digit string, most significant first. -/
def digitsToNat (cs : List Char) : Nat :=
  cs.foldl (fun n c => n * 10 + (c.toNat - 48)) 0

/-- Python `float()` restricted to plain decimal literals — optional
surrounding whitespace, optional sign, digits with an optional single
point as in `40`, `40.`, `.5`, `40.5` — yielding the exact rational.
(The exponent/inf/nan forms of the full `float()` grammar never occur in
curve specifications and are not modelled; a binary double is idealised
to the exact decimal value.) -/
def parseFloat (cs0 : List Char) : Option ℚ :=
  let t := strip cs0
  let sc : Int × List Char :=
    match t with
    | '-' :: r => (-1, r)
    | '+' :: r => (1, r)
    | r => (1, r)
  let cs := sc.2
  let ip := cs.takeWhile (· ≠ '.')
  match cs.dropWhile (· ≠ '.') with
  | [] =>
      if ip ≠ [] ∧ ip.all Char.isDigit then some (mkRat (sc.1 * digitsToNat ip) 1)
      else none
  | _ :: fp =>
      if (ip ≠ [] ∨ fp ≠ []) ∧ ip.all Char.isDigit ∧ fp.all Char.isDigit ∧
          ¬ fp.contains '.' then
        some (mkRat (sc.1 * (digitsToNat ip * 10 ^ fp.length + digitsToNat fp))
          (10 ^ fp.length))
      else none

/-- The `ValueError`s `_parse_speeds` raises while parsing a curve value
(source lines 388-406), with the datum each message interpolates. -/
inductive ParseError where
  /-- "Invalid point format: %s (expected temp:speed[:hyst])", naming the token. -/
  | invalidPointFormat (part : List Char)
  /-- "Speed must be 0-100, got %s". -/
  | invalidSpeed (speed : ℚ)
  /-- "Hysteresis must be >= 0, got %s". -/
  | invalidHysteresis (hyst : ℚ)
  /-- `float()` failed: "could not convert string to float: %s". -/
  | invalidNumber (piece : List Char)
  /-- "Mapping must have at least 2 points". -/
  | tooFewPoints
deriving DecidableEq, Repr

/-- `float(piece)` with its `ValueError` (source line 398). -/
def toFloat (piece : List Char) : Except ParseError ℚ :=
  match parseFloat piece with
  | some q => .ok q
  | none => .error (.invalidNumber piece)

/-- One `temp:speed[:hyst]` token of `_parse_speeds` (source lines
393-404): split on `:`, reject arity outside 2..3, convert the pieces in
source order (`float(pieces[0])`, `float(pieces[1])`, then the optional
`float(pieces[2])`), then check the speed range and the hysteresis sign
(`hyst is not None and hyst < 0`, rendered through `Option.getD 0`). -/
def parseHystPiece (pieces : List (List Char)) : Except ParseError (Option ℚ) :=
  if pieces.length = 3 then (toFloat (pieces.getD 2 [])).map some else .ok none

def parsePoint (part : List Char) : Except ParseError MappingPoint :=
  if (splitChar ':' part).length < 2 ∨ 3 < (splitChar ':' part).length then
    .error (.invalidPointFormat part)
  else do
    let temp ← toFloat ((splitChar ':' part).getD 0 [])
    let speed ← toFloat ((splitChar ':' part).getD 1 [])
    let hyst ← parseHystPiece (splitChar ':' part)
    if ¬ (0 ≤ speed ∧ speed ≤ 100) then .error (.invalidSpeed speed)
    else if hyst.getD 0 < 0 then .error (.invalidHysteresis (hyst.getD 0))
    else .ok ⟨temp, speed, hyst⟩

/-- The point loop of `_parse_speeds` (source lines 389-404): strip each
comma-separated part, skip empty parts, parse the rest in order. -/
def parsePoints : List (List Char) → Except ParseError (List MappingPoint)
  | [] => .ok []
  | part :: rest =>
      if strip part = [] then parsePoints rest
      else do
        let pt ← parsePoint (strip part)
        let pts ← parsePoints rest
        .ok (pt :: pts)

/-- Curve point order by threshold, the `key=lambda pp: pp[0]` of the
sort at source line 407. -/
def pointLe (p q : MappingPoint) : Prop := p.temp ≤ q.temp

instance : DecidableRel pointLe := fun p q => inferInstanceAs (Decidable (p.temp ≤ q.temp))

instance : IsTotal MappingPoint pointLe := ⟨fun p q => le_total p.temp q.temp⟩

instance : IsTrans MappingPoint pointLe := ⟨fun _ _ _ h h' => le_trans h h'⟩

/-- The value side of `FanSpeed.Config._parse_speeds` (source lines
384-408; the `key_part` regex of lines 371-382 is independent of the
curve and not modelled): an empty (stripped) value is the
disabled-marker `none`; otherwise parse the comma-separated points,
require at least two, and sort ascending by threshold (Python's stable
sort, modelled by insertion sort). -/
def parse_speeds_value (value_part : List Char) :
    Except ParseError (Option (List MappingPoint)) :=
  if strip value_part = [] then .ok none
  else
    parsePoints (splitChar ',' (strip value_part)) >>= fun points =>
      if points.length < 2 then .error .tooFewPoints
      else .ok (some (points.insertionSort pointLe))

theorem ratSub_eq (a b : ℚ) : ratSub a b = a - b := by
  unfold ratSub
  rw [Rat.sub_def, ← Rat.normalize_eq_mkRat]

theorem assocGet_assocSet_self {α β : Type} [DecidableEq α]
    (l : List (α × β)) (k : α) (v : β) : assocGet (assocSet l k v) k = some v := by
  induction l with
  | nil => simp [assocSet, assocGet]
  | cons kv rest ih =>
      obtain ⟨a, b⟩ := kv
      by_cases h : a = k
      · simp [assocSet, assocGet, h]
      · simp [assocSet, assocGet, h, ih]

theorem assocGet_assocSet_ne {α β : Type} [DecidableEq α]
    (l : List (α × β)) (k k' : α) (v : β) (h : k' ≠ k) :
    assocGet (assocSet l k v) k' = assocGet l k' := by
  induction l with
  | nil => simp [assocSet, assocGet, Ne.symm h]
  | cons kv rest ih =>
      obtain ⟨a, b⟩ := kv
      by_cases h2 : a = k
      · subst h2
        simp [assocSet, assocGet, Ne.symm h]
      · simp [assocSet, assocGet, h2, ih]

theorem normalIdxAux_all (temp : ℚ) (l : List MappingPoint)
    (h : ∀ p ∈ l, ¬ p.temp ≤ temp) :
    ∀ (i : Nat) (acc : Int), normalIdxAux temp l i acc = acc := by
  induction l with
  | nil => intro i acc; rfl
  | cons p rest ih =>
      intro i acc
      have hp : ¬ p.temp ≤ temp := h p (List.mem_cons_self _ _)
      simp only [normalIdxAux, if_neg hp]
      exact ih (fun q hq => h q (List.mem_cons_of_mem _ hq)) (i + 1) acc

theorem normalIdxAux_exists (temp : ℚ) (l : List MappingPoint)
    (h : ∃ p ∈ l, p.temp ≤ temp) :
    ∀ (i : Nat) (acc : Int),
      ∃ j, ∃ hj : j < l.length,
        (l.get ⟨j, hj⟩).temp ≤ temp ∧
        (∀ j', ∀ hj' : j' < l.length, j < j' → ¬ (l.get ⟨j', hj'⟩).temp ≤ temp) ∧
        normalIdxAux temp l i acc = (i : Int) + (j : Int) := by
  induction l with
  | nil =>
      rcases h with ⟨p, hp, _⟩
      cases hp
  | cons p rest ih =>
      intro i acc
      by_cases hr : ∃ q ∈ rest, q.temp ≤ temp
      · rcases ih hr (i + 1) (if p.temp ≤ temp then (i : Int) else acc) with
          ⟨j, hj, h1, h2, h3⟩
        refine ⟨j + 1, by simpa using Nat.succ_lt_succ hj, by simpa using h1, ?_, ?_⟩
        · intro j' hj' hlt
          cases j' with
          | zero => omega
          | succ j'' =>
              have hj'' : j'' < rest.length := by simpa using hj'
              simpa using h2 j'' hj'' (by omega)
        · simp only [normalIdxAux]
          rw [h3]
          push_cast
          ring
      · have hp : p.temp ≤ temp := by
          rcases h with ⟨q, hq, hqt⟩
          rcases List.mem_cons.mp hq with rfl | hq'
          · exact hqt
          · exact absurd ⟨q, hq', hqt⟩ hr
        have hall : ∀ q ∈ rest, ¬ q.temp ≤ temp := by
          intro q hq hqt
          exact hr ⟨q, hq, hqt⟩
        refine ⟨0, Nat.succ_pos _, by simpa using hp, ?_, ?_⟩
        · intro j' hj' hlt
          cases j' with
          | zero => omega
          | succ j'' =>
              have hj'' : j'' < rest.length := by simpa using hj'
              simpa using hall (rest.get ⟨j'', hj''⟩) (List.get_mem _ _ _)
        · simp only [normalIdxAux, if_pos hp]
          rw [normalIdxAux_all temp rest hall (i + 1) ((i : Nat) : Int)]
          simp

theorem activeIdxAux_cases (a : ℚ) (l : List MappingPoint) :
    ∀ i : Nat, activeIdxAux a l i = -1 ∨
      ∃ j, ∃ hj : j < l.length,
        activeIdxAux a l i = (i : Int) + (j : Int) ∧ (l.get ⟨j, hj⟩).temp = a := by
  induction l with
  | nil => intro i; left; rfl
  | cons p rest ih =>
      intro i
      by_cases hp : p.temp = a
      · right
        exact ⟨0, Nat.succ_pos _, by simp [activeIdxAux, hp], by simpa using hp⟩
      · rcases ih (i + 1) with h | ⟨j, hj, h1, h2⟩
        · left
          simpa [activeIdxAux, hp] using h
        · right
          refine ⟨j + 1, by simpa using Nat.succ_lt_succ hj, ?_, by simpa using h2⟩
          simp only [activeIdxAux, if_neg hp]
          rw [h1]
          push_cast
          ring

theorem activeIdxAux_ne_neg (a : ℚ) (l : List MappingPoint)
    (h : ∃ p ∈ l, p.temp = a) : ∀ i : Nat, activeIdxAux a l i ≠ -1 := by
  induction l with
  | nil =>
      rcases h with ⟨p, hp, _⟩
      cases hp
  | cons p rest ih =>
      intro i
      by_cases hp : p.temp = a
      · simp only [activeIdxAux, if_pos hp]
        omega
      · have hrest : ∃ q ∈ rest, q.temp = a := by
          rcases h with ⟨q, hq, hqt⟩
          rcases List.mem_cons.mp hq with rfl | hq'
          · exact absurd hqt hp
          · exact ⟨q, hq', hqt⟩
        simpa [activeIdxAux, hp] using ih hrest (i + 1)

theorem normalIdx_eq_of_exists (temp : ℚ) (mapping : List MappingPoint)
    (h : ∃ p ∈ mapping, p.temp ≤ temp) :
    ∃ j, ∃ hj : j < mapping.length,
      normalIdx temp mapping = (j : Int) ∧
      (mapping.get ⟨j, hj⟩).temp ≤ temp ∧
      (∀ j', ∀ hj' : j' < mapping.length, j < j' → ¬ (mapping.get ⟨j', hj'⟩).temp ≤ temp) := by
  rcases normalIdxAux_exists temp mapping h 0 (-1) with ⟨j, hj, h1, h2, h3⟩
  refine ⟨j, hj, ?_, h1, h2⟩
  unfold normalIdx
  rw [h3]
  simp

theorem normalIdx_greatest (temp : ℚ) (mapping : List MappingPoint)
    (hsorted : List.Sorted pointLe mapping)
    (j : Nat) (hj : j < mapping.length)
    (hle : (mapping.get ⟨j, hj⟩).temp ≤ temp)
    (hafter : ∀ j', ∀ hj' : j' < mapping.length, j < j' → ¬ (mapping.get ⟨j', hj'⟩).temp ≤ temp) :
    ∀ q ∈ mapping, q.temp ≤ temp → q.temp ≤ (mapping.get ⟨j, hj⟩).temp := by
  intro q hq hqt
  rcases List.mem_iff_get.mp hq with ⟨⟨i, hi⟩, rfl⟩
  rcases lt_trichotomy i j with hlt | rfl | hgt
  · exact List.Sorted.rel_get_of_lt hsorted (by simpa using hlt)
  · exact le_refl _
  · exact absurd hqt (hafter i hi hgt)

theorem get?_coe (l : List MappingPoint) (j : Nat) (hj : j < l.length) :
    l.get? ((j : Int)).toNat = some (l.get ⟨j, hj⟩) := by
  simp only [Int.toNat_natCast]
  exact List.get?_eq_get hj

/-- C7: with no prior `active_threshold`, `lookup` returns the speed of
the point with the greatest threshold `≤ temp` — together with that
threshold as the new latch — and, below every threshold, the first
point's speed and threshold. -/
theorem C7_lookup_no_latch (config : FanSpeed.Config) (mapping : List MappingPoint)
    (temp : ℚ) (hsorted : List.Sorted pointLe mapping) (hlen : 2 ≤ mapping.length) :
    ((∃ p ∈ mapping, p.temp ≤ temp) →
      ∃ j, ∃ hj : j < mapping.length,
        (mapping.get ⟨j, hj⟩).temp ≤ temp ∧
        (∀ q ∈ mapping, q.temp ≤ temp → q.temp ≤ (mapping.get ⟨j, hj⟩).temp) ∧
        FanSpeed.lookup config temp mapping none =
          some ((mapping.get ⟨j, hj⟩).speed, (mapping.get ⟨j, hj⟩).temp)) ∧
    ((∀ p ∈ mapping, temp < p.temp) →
      ∃ p0, mapping.get? 0 = some p0 ∧
        FanSpeed.lookup config temp mapping none = some (p0.speed, p0.temp)) := by
  constructor
  · intro hex
    rcases normalIdx_eq_of_exists temp mapping hex with ⟨j, hj, hidx, h1, h2⟩
    refine ⟨j, hj, h1, normalIdx_greatest temp mapping hsorted j hj h1 h2, ?_⟩
    have hn : ¬ normalIdx temp mapping < 0 := by
      rw [hidx]
      omega
    simp only [FanSpeed.lookup]
    rw [if_neg hn, hidx, get?_coe mapping j hj]
    rfl
  · intro hall
    have hneg : normalIdx temp mapping = -1 :=
      normalIdxAux_all temp mapping (fun p hp => not_le.mpr (hall p hp)) 0 (-1)
    have h0 : 0 < mapping.length := by omega
    refine ⟨mapping.get ⟨0, h0⟩, List.get?_eq_get h0, ?_⟩
    have hn : normalIdx temp mapping < 0 := by
      rw [hneg]
      omega
    simp only [FanSpeed.lookup]
    rw [if_pos hn, List.get?_eq_get h0]
    rfl

/-- C7 witness: the theorem applied to the two-point curve
`[(40, 15), (80, 100)]` at temp 60 (for the greatest-threshold case) and
at temp 30 (for the below-all case). -/
theorem C7_witness :
    (∃ j, ∃ hj : j < ([⟨40, 15, none⟩, ⟨80, 100, none⟩] : List MappingPoint).length,
      (([⟨40, 15, none⟩, ⟨80, 100, none⟩] : List MappingPoint).get ⟨j, hj⟩).temp ≤ 60 ∧
      (∀ q ∈ ([⟨40, 15, none⟩, ⟨80, 100, none⟩] : List MappingPoint), q.temp ≤ 60 →
        q.temp ≤ (([⟨40, 15, none⟩, ⟨80, 100, none⟩] : List MappingPoint).get ⟨j, hj⟩).temp) ∧
      FanSpeed.lookup ⟨5, []⟩ 60 [⟨40, 15, none⟩, ⟨80, 100, none⟩] none =
        some ((([⟨40, 15, none⟩, ⟨80, 100, none⟩] : List MappingPoint).get ⟨j, hj⟩).speed,
          (([⟨40, 15, none⟩, ⟨80, 100, none⟩] : List MappingPoint).get ⟨j, hj⟩).temp)) ∧
    (∃ p0, ([⟨40, 15, none⟩, ⟨80, 100, none⟩] : List MappingPoint).get? 0 = some p0 ∧
      FanSpeed.lookup ⟨5, []⟩ 30 [⟨40, 15, none⟩, ⟨80, 100, none⟩] none =
        some (p0.speed, p0.temp)) :=
  ⟨(C7_lookup_no_latch ⟨5, []⟩ [⟨40, 15, none⟩, ⟨80, 100, none⟩] 60
      (by decide) (by decide)).1 ⟨⟨40, 15, none⟩, by decide, by decide⟩,
   (C7_lookup_no_latch ⟨5, []⟩ [⟨40, 15, none⟩, ⟨80, 100, none⟩] 30
      (by decide) (by decide)).2 (by decide)⟩

/-- C10: on any non-empty curve, `lookup` is total for every temperature
and every prior `active_threshold` (present in the curve or not), and its
result is the `(speed, threshold)` pair of a single point of the curve. -/
theorem C10_lookup_total (config : FanSpeed.Config) (mapping : List MappingPoint)
    (temp : ℚ) (active_threshold : Option ℚ) (hne : mapping ≠ []) :
    ∃ p ∈ mapping, FanSpeed.lookup config temp mapping active_threshold =
      some (p.speed, p.temp) := by
  have h0 : 0 < mapping.length := List.length_pos.mpr hne
  by_cases hn : normalIdx temp mapping < 0
  · refine ⟨mapping.get ⟨0, h0⟩, List.get_mem _ _ _, ?_⟩
    simp only [FanSpeed.lookup]
    rw [if_pos hn, List.get?_eq_get h0]
    rfl
  · have hex : ∃ p ∈ mapping, p.temp ≤ temp := by
      by_contra hc
      push_neg at hc
      have : normalIdx temp mapping = -1 :=
        normalIdxAux_all temp mapping (fun p hp => not_le.mpr (hc p hp)) 0 (-1)
      omega
    rcases normalIdx_eq_of_exists temp mapping hex with ⟨j, hj, hidx, h1, h2⟩
    cases active_threshold with
    | none =>
        refine ⟨mapping.get ⟨j, hj⟩, List.get_mem _ _ _, ?_⟩
        simp only [FanSpeed.lookup]
        rw [if_neg hn, hidx, get?_coe mapping j hj]
        rfl
    | some a =>
        by_cases hcond : activeIdx a mapping < 0 ∨ (j : Int) ≥ activeIdx a mapping
        · refine ⟨mapping.get ⟨j, hj⟩, List.get_mem _ _ _, ?_⟩
          simp only [FanSpeed.lookup]
          rw [if_neg hn, hidx, get?_coe mapping j hj]
          show (if activeIdx a mapping < 0 ∨ (j : Int) ≥ activeIdx a mapping then _ else _) = _
          rw [if_pos hcond]
        · push_neg at hcond
          rcases activeIdxAux_cases a mapping 0 with hneg | ⟨k, hk, hak, hka⟩
          · have h1' : activeIdx a mapping = -1 := hneg
            omega
          · have hak' : activeIdx a mapping = (k : Int) := by
              have : activeIdx a mapping = ((0 : Nat) : Int) + (k : Int) := hak
              omega
            by_cases hdrop :
                temp < ratSub (mapping.get ⟨k, hk⟩).temp
                  ((mapping.get ⟨k, hk⟩).hyst.getD config.hysteresis_celsius)
            · refine ⟨mapping.get ⟨j, hj⟩, List.get_mem _ _ _, ?_⟩
              simp only [FanSpeed.lookup]
              rw [if_neg hn, hidx, get?_coe mapping j hj]
              show (if activeIdx a mapping < 0 ∨ (j : Int) ≥ activeIdx a mapping then _ else _) = _
              rw [if_neg (by omega), hak', get?_coe mapping k hk]
              show (if temp < ratSub _ _ then _ else _) = _
              rw [if_pos hdrop]
            · refine ⟨mapping.get ⟨k, hk⟩, List.get_mem _ _ _, ?_⟩
              simp only [FanSpeed.lookup]
              rw [if_neg hn, hidx, get?_coe mapping j hj]
              show (if activeIdx a mapping < 0 ∨ (j : Int) ≥ activeIdx a mapping then _ else _) = _
              rw [if_neg (by omega), hak', get?_coe mapping k hk]
              show (if temp < ratSub _ _ then _ else _) = _
              rw [if_neg hdrop]

/-- C10 witness: the theorem applied to a curve with an `active_threshold`
(43) that is not a threshold of the curve. -/
theorem C10_witness :
    ∃ p ∈ ([⟨40, 15, none⟩, ⟨80, 100, none⟩] : List MappingPoint),
      FanSpeed.lookup ⟨5, []⟩ 60 [⟨40, 15, none⟩, ⟨80, 100, none⟩] (some 43) =
        some (p.speed, p.temp) :=
  C10_lookup_total ⟨5, []⟩ [⟨40, 15, none⟩, ⟨80, 100, none⟩] 60 (some 43) (by decide)

/-- C5 (amended): on a sorted curve, if the prior `active_threshold` `a` is a
curve threshold, the temperature is *not* below every threshold (the
correction: the source line 455-457 early return otherwise bypasses the
hysteresis check entirely), and every threshold `≤ temp` is strictly below
`a`, then with `h` the latched point's hysteresis override (else the engine
default): `temp ≥ a − h` keeps the latched speed and threshold, and
`temp < a − h` releases to the rising point (greatest threshold `≤ temp`). -/
theorem C5_amended (config : FanSpeed.Config) (mapping : List MappingPoint)
    (temp a : ℚ) (hsorted : List.Sorted pointLe mapping)
    (hthr : ∃ p ∈ mapping, p.temp = a)
    (hrise : ∃ p ∈ mapping, p.temp ≤ temp)
    (hfall : ∀ p ∈ mapping, p.temp ≤ temp → p.temp < a) :
    ∃ k, ∃ hk : k < mapping.length,
      activeIdx a mapping = (k : Int) ∧ (mapping.get ⟨k, hk⟩).temp = a ∧
      (a - (mapping.get ⟨k, hk⟩).hyst.getD config.hysteresis_celsius ≤ temp →
        FanSpeed.lookup config temp mapping (some a) =
          some ((mapping.get ⟨k, hk⟩).speed, a)) ∧
      (temp < a - (mapping.get ⟨k, hk⟩).hyst.getD config.hysteresis_celsius →
        ∃ j, ∃ hj : j < mapping.length,
          (mapping.get ⟨j, hj⟩).temp ≤ temp ∧
          (∀ q ∈ mapping, q.temp ≤ temp → q.temp ≤ (mapping.get ⟨j, hj⟩).temp) ∧
          FanSpeed.lookup config temp mapping (some a) =
            some ((mapping.get ⟨j, hj⟩).speed, (mapping.get ⟨j, hj⟩).temp)) := by
  rcases activeIdxAux_cases a mapping 0 with hneg | ⟨k, hk, hak, hka⟩
  · exact absurd hneg (activeIdxAux_ne_neg a mapping hthr 0)
  have hak' : activeIdx a mapping = (k : Int) := by
    have h' : activeIdxAux a mapping 0 = ((0 : Nat) : Int) + (k : Int) := hak
    have h'' : activeIdx a mapping = ((0 : Nat) : Int) + (k : Int) := h'
    omega
  rcases normalIdx_eq_of_exists temp mapping hrise with ⟨j, hj, hidx, h1, h2⟩
  have hn : ¬ normalIdx temp mapping < 0 := by
    rw [hidx]
    omega
  have hjk : j < k := by
    by_contra hc
    push_neg at hc
    have hkj : (mapping.get ⟨k, hk⟩).temp ≤ (mapping.get ⟨j, hj⟩).temp := by
      rcases lt_or_eq_of_le hc with hlt | heq
      · exact List.Sorted.rel_get_of_lt hsorted (by simpa using hlt)
      · subst heq
        exact le_refl _
    have hja := hfall (mapping.get ⟨j, hj⟩) (List.get_mem _ _ _) h1
    rw [hka] at hkj
    exact absurd hja (not_lt.mpr hkj)
  refine ⟨k, hk, hak', hka, ?_, ?_⟩
  · intro hstay
    have hdrop : ¬ temp < ratSub (mapping.get ⟨k, hk⟩).temp
        ((mapping.get ⟨k, hk⟩).hyst.getD config.hysteresis_celsius) := by
      rw [ratSub_eq, hka]
      exact not_lt.mpr hstay
    simp only [FanSpeed.lookup]
    rw [if_neg hn, hidx, get?_coe mapping j hj]
    show (if activeIdx a mapping < 0 ∨ (j : Int) ≥ activeIdx a mapping then _ else _) = _
    rw [if_neg (by omega), hak', get?_coe mapping k hk]
    show (if temp < ratSub _ _ then _ else _) = _
    rw [if_neg hdrop, hka]
  · intro hrel
    have hdrop : temp < ratSub (mapping.get ⟨k, hk⟩).temp
        ((mapping.get ⟨k, hk⟩).hyst.getD config.hysteresis_celsius) := by
      rw [ratSub_eq, hka]
      exact hrel
    refine ⟨j, hj, h1, normalIdx_greatest temp mapping hsorted j hj h1 h2, ?_⟩
    simp only [FanSpeed.lookup]
    rw [if_neg hn, hidx, get?_coe mapping j hj]
    show (if activeIdx a mapping < 0 ∨ (j : Int) ≥ activeIdx a mapping then _ else _) = _
    rw [if_neg (by omega), hak', get?_coe mapping k hk]
    show (if temp < ratSub _ _ then _ else _) = _
    rw [if_pos hdrop]

/-- C5 witness: latched at 70 on `[(40,15,5), (70,50,5), (80,100,5)]`,
temp 68 ≥ 70 − 5 stays at (50, 70). -/
theorem C5_witness :
    FanSpeed.lookup ⟨5, []⟩ 68 [⟨40, 15, some 5⟩, ⟨70, 50, some 5⟩, ⟨80, 100, some 5⟩]
      (some 70) = some (50, 70) := by
  rcases C5_amended ⟨5, []⟩ [⟨40, 15, some 5⟩, ⟨70, 50, some 5⟩, ⟨80, 100, some 5⟩] 68 70
      (by decide) ⟨⟨70, 50, some 5⟩, by decide, by decide⟩
      ⟨⟨40, 15, some 5⟩, by decide, by decide⟩ (by decide) with ⟨k, hk, hak, hka, hstay, _⟩
  have hk1 : k = 1 := by
    have h70 : activeIdx 70 [⟨40, 15, some 5⟩, ⟨70, 50, some 5⟩, ⟨80, 100, some 5⟩] = 1 := by
      decide
    rw [h70] at hak
    omega
  subst hk1
  have hlook := hstay (by norm_num)
  exact hlook

/-- C5 counterexample: on the curve `[(40,25), (44,50)]` with default
hysteresis 5 and latch 44, temp 39 satisfies every hypothesis of the claim
(44 is a threshold; 39 is below all thresholds, so the claim's rising
threshold is the first threshold 40 < 44; 39 ≥ 44 − 5), yet `lookup`
returns the rising point (25, 40), not the latched (50, 44): the
below-all-thresholds early return bypasses the hysteresis band. -/
theorem C5_counterexample :
    (∃ p ∈ ([⟨40, 25, none⟩, ⟨44, 50, none⟩] : List MappingPoint), p.temp = 44) ∧
    (∀ p ∈ ([⟨40, 25, none⟩, ⟨44, 50, none⟩] : List MappingPoint), 39 < p.temp) ∧
    ((44 : ℚ) - 5 ≤ 39) ∧
    FanSpeed.lookup ⟨5, []⟩ 39 [⟨40, 25, none⟩, ⟨44, 50, none⟩] (some 44) = some (25, 40) ∧
    FanSpeed.lookup ⟨5, []⟩ 39 [⟨40, 25, none⟩, ⟨44, 50, none⟩] (some 44) ≠ some (50, 44) :=
  ⟨⟨⟨44, 50, none⟩, by decide, by decide⟩, by decide, by norm_num, by decide, by decide⟩

theorem firstEnabled_cons_skip (speeds : SpeedTable) (k0 : MappingKey) (ks : List MappingKey)
    (h : assocGet speeds k0 = none ∨ assocGet speeds k0 = some none) :
    firstEnabled speeds (k0 :: ks) = firstEnabled speeds ks := by
  rcases h with h | h <;> simp [firstEnabled, h]

theorem firstEnabled_cons_hit (speeds : SpeedTable) (k0 : MappingKey) (ks : List MappingKey)
    (m0 : Curve) (h : assocGet speeds k0 = some (some m0)) :
    firstEnabled speeds (k0 :: ks) = some (m0, k0) := by
  simp [firstEnabled, h]

theorem firstEnabled_spec (speeds : SpeedTable) : ∀ ks : List MappingKey,
    (firstEnabled speeds ks = none ↔
      ∀ k ∈ ks, assocGet speeds k = none ∨ assocGet speeds k = some none) ∧
    (∀ m k, firstEnabled speeds ks = some (m, k) →
      ∃ i, ∃ hi : i < ks.length,
        ks.get ⟨i, hi⟩ = k ∧ assocGet speeds k = some (some m) ∧
        ∀ i', ∀ hi' : i' < ks.length, i' < i →
          assocGet speeds (ks.get ⟨i', hi'⟩) = none ∨
          assocGet speeds (ks.get ⟨i', hi'⟩) = some none) := by
  intro ks
  induction ks with
  | nil =>
      constructor
      · simp [firstEnabled]
      · intro m k h
        simp [firstEnabled] at h
  | cons k0 ks ih =>
      rcases ih with ⟨ih1, ih2⟩
      by_cases hskip : assocGet speeds k0 = none ∨ assocGet speeds k0 = some none
      · constructor
        · rw [firstEnabled_cons_skip speeds k0 ks hskip, ih1]
          constructor
          · intro h k hk
            rcases List.mem_cons.mp hk with rfl | hk'
            · exact hskip
            · exact h k hk'
          · intro h k hk
            exact h k (List.mem_cons_of_mem _ hk)
        · intro m k h
          rw [firstEnabled_cons_skip speeds k0 ks hskip] at h
          rcases ih2 m k h with ⟨i, hi, e1, e2, e3⟩
          refine ⟨i + 1, by simpa using Nat.succ_lt_succ hi, by simpa using e1, e2, ?_⟩
          intro i' hi' hlt
          cases i' with
          | zero => simpa using hskip
          | succ i'' =>
              have hi'' : i'' < ks.length := by simpa using hi'
              simpa using e3 i'' hi'' (by omega)
      · have hhit : ∃ m0, assocGet speeds k0 = some (some m0) := by
          push_neg at hskip
          cases hg : assocGet speeds k0 with
          | none => exact absurd hg hskip.1
          | some mo =>
              cases mo with
              | none => exact absurd hg hskip.2
              | some m0 => exact ⟨m0, rfl⟩
        rcases hhit with ⟨m0, hm0⟩
        constructor
        · rw [firstEnabled_cons_hit speeds k0 ks m0 hm0]
          constructor
          · intro h
            simp at h
          · intro h
            rcases h k0 (List.mem_cons_self _ _) with h1 | h1 <;> simp [hm0] at h1
        · intro m k h
          rw [firstEnabled_cons_hit speeds k0 ks m0 hm0] at h
          have hmk := Option.some.inj h
          have hm : m0 = m := congrArg Prod.fst hmk
          have hk : k0 = k := congrArg Prod.snd hmk
          subst hm
          subst hk
          refine ⟨0, Nat.succ_pos _, rfl, hm0, ?_⟩
          intro i' hi' hlt
          omega

/-- C2 (amended): `FanSpeed.get` probes (class,index,zone) >
(class,index,ALL) > (class,ALL,zone) > (class,ALL,ALL) in that order, and
the first key that is present *and enabled* decides the result; a
disabled-marker entry does not terminate resolution — it is skipped
exactly like an absent key — so the result is absent iff every probe key
is absent or disabled. -/
theorem C2_amended (config : FanSpeed.Config) (device_type : String)
    (device_idx zone : Int) :
    (FanSpeed.get config device_type device_idx zone = none ↔
      ∀ k ∈ probeKeys device_type device_idx zone,
        assocGet config.speeds k = none ∨ assocGet config.speeds k = some none) ∧
    (∀ m k, FanSpeed.get config device_type device_idx zone = some (m, k) →
      ∃ i, ∃ hi : i < (probeKeys device_type device_idx zone).length,
        (probeKeys device_type device_idx zone).get ⟨i, hi⟩ = k ∧
        assocGet config.speeds k = some (some m) ∧
        ∀ i', ∀ hi' : i' < (probeKeys device_type device_idx zone).length, i' < i →
          assocGet config.speeds ((probeKeys device_type device_idx zone).get ⟨i', hi'⟩) =
            none ∨
          assocGet config.speeds ((probeKeys device_type device_idx zone).get ⟨i', hi'⟩) =
            some none) :=
  firstEnabled_spec config.speeds (probeKeys device_type device_idx zone)

/-- C2 witness: with the only entry an explicit disable of the exact key
and no other entries, resolution is absent. -/
theorem C2_witness :
    FanSpeed.get ⟨5, [(("gpu", 0, 0), none)]⟩ "gpu" 0 0 = none :=
  (C2_amended ⟨5, [(("gpu", 0, 0), none)]⟩ "gpu" 0 0).1.mpr (by decide)

/-- C2 counterexample: the most specific probe key ("gpu",0,0) is present
as the disabled-marker, yet `get` does not return absent — it falls
through to the enabled full-wildcard curve, contradicting "an explicit
disable at any precedence level is final". -/
theorem C2_counterexample :
    assocGet ([(("gpu", 0, 0), none),
        (("gpu", -1, -1), some [⟨0, 10, none⟩, ⟨50, 99, none⟩])] : SpeedTable)
      ("gpu", 0, 0) = some none ∧
    (probeKeys "gpu" 0 0).head? = some ("gpu", 0, 0) ∧
    FanSpeed.get ⟨5, [(("gpu", 0, 0), none),
        (("gpu", -1, -1), some [⟨0, 10, none⟩, ⟨50, 99, none⟩])]⟩ "gpu" 0 0 =
      some ([⟨0, 10, none⟩, ⟨50, 99, none⟩], ("gpu", -1, -1)) ∧
    FanSpeed.get ⟨5, [(("gpu", 0, 0), none),
        (("gpu", -1, -1), some [⟨0, 10, none⟩, ⟨50, 99, none⟩])]⟩ "gpu" 0 0 ≠ none := by
  refine ⟨by decide, by decide, by decide, by decide⟩

/-- C1 (amended): per zone, `_compute_zone_speeds` writes the latch for
exactly one evaluated device — the max-speed winner — setting its
`(dev_name, dev_idx, zone)` to the winner's `new_thresh`; every other
evaluated device's latch entry for that zone is left at its previous
value (NOT overwritten with that device's own lookup result). -/
theorem C1_amended (speed : FanSpeed.Config) (active : AThr) (temps : Temps)
    (zone : Int) (c : Candidate) (cs : List Candidate)
    (hc : zoneCandidates speed active temps zone = .ok (c :: cs)) :
    processZone speed active temps zone =
      .ok (assocSet active ((maxBySpd c cs).devName, (maxBySpd c cs).devIdx, zone)
            (maxBySpd c cs).newThresh,
          ⟨pyInt (maxBySpd c cs).spd, (maxBySpd c cs).trigger, (maxBySpd c cs).temp⟩) ∧
    assocGet (assocSet active ((maxBySpd c cs).devName, (maxBySpd c cs).devIdx, zone)
        (maxBySpd c cs).newThresh)
      ((maxBySpd c cs).devName, (maxBySpd c cs).devIdx, zone) =
      some (maxBySpd c cs).newThresh ∧
    ∀ name : String, ∀ idx : Int,
      (name, idx) ≠ ((maxBySpd c cs).devName, (maxBySpd c cs).devIdx) →
      assocGet (assocSet active ((maxBySpd c cs).devName, (maxBySpd c cs).devIdx, zone)
          (maxBySpd c cs).newThresh) (name, idx, zone) =
        assocGet active (name, idx, zone) := by
  refine ⟨by simp [processZone, hc], assocGet_assocSet_self _ _ _, ?_⟩
  intro name idx hne
  apply assocGet_assocSet_ne
  intro he
  apply hne
  rw [Prod.ext_iff] at he
  rw [Prod.ext_iff]
  exact ⟨he.1, (Prod.ext_iff.mp he.2).1⟩

/-- C1 witness: two readings of one class share a curve in zone 0; the
cooler device 0 (whose lookup returned threshold 40) keeps its old latch
70, while only winner device 1 is written. -/
theorem C1_witness :
    processZone ⟨5, [(("a", -1, -1), some [⟨40, 15, some 5⟩, ⟨70, 50, some 5⟩])]⟩
        [(("a", 0, 0), 70), (("a", 1, 0), 70)] [("a", some [30, 75])] 0 =
      .ok ([(("a", 0, 0), 70), (("a", 1, 0), 70)], ⟨50, "A1", 75⟩) ∧
    assocGet [(("a", 0, 0), 70), (("a", 1, 0), 70)] ("a", 0, 0) = some 70 := by
  constructor
  · rw [(C1_amended ⟨5, [(("a", -1, -1), some [⟨40, 15, some 5⟩, ⟨70, 50, some 5⟩])]⟩
        [(("a", 0, 0), 70), (("a", 1, 0), 70)] [("a", some [30, 75])] 0
        ⟨15, "A0", 30, "a", 0, 40⟩ [⟨50, "A1", 75, "a", 1, 70⟩] (by decide)).1]
    decide
  · decide

/-- C1 counterexample: the claim says every evaluated triple's latch is
overwritten with its own lookup's new_threshold.  Here device ("a",0) in
zone 0 is evaluated — its curve resolves and its lookup returns
new_threshold 40 — yet after the iteration its ActiveThreshold entry
still reads the old 70: only the winner ("a",1) was written. -/
theorem C1_counterexample :
    FanSpeed.get ⟨5, [(("a", -1, -1), some [⟨40, 15, some 5⟩, ⟨70, 50, some 5⟩])]⟩ "a" 0 0 =
      some ([⟨40, 15, some 5⟩, ⟨70, 50, some 5⟩], ("a", -1, -1)) ∧
    FanSpeed.lookup ⟨5, [(("a", -1, -1), some [⟨40, 15, some 5⟩, ⟨70, 50, some 5⟩])]⟩ 30
        [⟨40, 15, some 5⟩, ⟨70, 50, some 5⟩]
        (assocGet [(("a", 0, 0), 70), (("a", 1, 0), 70)] ("a", 0, 0)) = some (15, 40) ∧
    compute_zone_speeds ⟨5, [(("a", -1, -1), some [⟨40, 15, some 5⟩, ⟨70, 50, some 5⟩])]⟩
        [0] [(("a", 0, 0), 70), (("a", 1, 0), 70)] [("a", some [30, 75])] =
      .ok ([(("a", 0, 0), 70), (("a", 1, 0), 70)], [(0, ⟨50, "A1", 75⟩)]) ∧
    assocGet [(("a", 0, 0), 70), (("a", 1, 0), 70)] ("a", 0, 0) = some 70 ∧
    (70 : ℚ) ≠ 40 := by
  refine ⟨by decide, by decide, by decide, by decide, by decide⟩

/-- C4 (amended): the decided zone speed is the winning candidate's curve
speed truncated toward zero by Python `int()` — no quantization to a
step multiple and no [min, max] clamp is applied (no such per-zone
parameters exist in the program). -/
theorem C4_amended (speed : FanSpeed.Config) (active : AThr) (temps : Temps)
    (zone : Int) (c : Candidate) (cs : List Candidate)
    (hc : zoneCandidates speed active temps zone = .ok (c :: cs)) :
    ∃ a1, processZone speed active temps zone =
      .ok (a1, ⟨pyInt (maxBySpd c cs).spd, (maxBySpd c cs).trigger,
        (maxBySpd c cs).temp⟩) :=
  ⟨assocSet active ((maxBySpd c cs).devName, (maxBySpd c cs).devIdx, zone)
      (maxBySpd c cs).newThresh,
    by simp [processZone, hc]⟩

/-- C4 witness: a winning curve speed of 47 is commanded as `int(47) = 47`. -/
theorem C4_witness :
    ∃ a1, processZone ⟨5, [(("a", -1, -1), some [⟨0, 47, none⟩, ⟨60, 80, none⟩])]⟩ []
        [("a", some [10])] 0 = .ok (a1, ⟨47, "A0", 10⟩) :=
  C4_amended ⟨5, [(("a", -1, -1), some [⟨0, 47, none⟩, ⟨60, 80, none⟩])]⟩ []
    [("a", some [10])] 0 ⟨47, "A0", 10, "a", 0, 0⟩ [] (by decide)

/-- C4 counterexample: a raw winning speed of 47 with the claim's example
step 10 would be commanded as 50; the program commands 47 — not a
multiple of 10, hence no round-to-nearest-step quantization occurs. -/
theorem C4_counterexample :
    compute_zone_speeds ⟨5, [(("a", -1, -1), some [⟨0, 47, none⟩, ⟨60, 80, none⟩])]⟩ [0] []
        [("a", some [10])] = .ok ([(("a", 0, 0), 0)], [(0, ⟨47, "A0", 10⟩)]) ∧
    (47 : Int) ≠ 50 ∧ (47 : Int) % 10 ≠ 0 := by
  refine ⟨by decide, by decide, by decide⟩

theorem candidatesOfDevice_nil (speed : FanSpeed.Config) (active : AThr) (zone : Int)
    (name : String) (pairs : List (Nat × Int))
    (h : ∀ iv ∈ pairs, FanSpeed.get speed name (iv.1 : Int) zone = none) :
    candidatesOfDevice speed active zone name pairs = .ok [] := by
  induction pairs with
  | nil => rfl
  | cons iv rest ih =>
      obtain ⟨idx, temp⟩ := iv
      have hhead : FanSpeed.get speed name (idx : Int) zone = none :=
        h (idx, temp) (List.mem_cons_self _ _)
      simp only [candidatesOfDevice, hhead]
      exact ih fun iv hiv => h iv (List.mem_cons_of_mem _ hiv)

theorem zoneCandidates_nil (speed : FanSpeed.Config) (active : AThr) (zone : Int) :
    ∀ temps : Temps, noneResolves speed temps zone →
      zoneCandidates speed active temps zone = .ok [] := by
  intro temps
  induction temps with
  | nil => intro _; rfl
  | cons nv rest ih =>
      intro h
      obtain ⟨name, values⟩ := nv
      have hdev : candidatesOfDevice speed active zone name (values.getD []).enum = .ok [] :=
        candidatesOfDevice_nil speed active zone name _
          (fun iv hiv => h (name, values) (List.mem_cons_self _ _) iv hiv)
      have hrest : zoneCandidates speed active rest zone = .ok [] :=
        ih fun nv hnv iv hiv => h nv (List.mem_cons_of_mem _ hnv) iv hiv
      simp only [zoneCandidates, hdev, hrest]
      rfl

theorem computeZoneSpeedsAux_no_candidates (speed : FanSpeed.Config) (temps : Temps)
    (z : Int) (hnone : noneResolves speed temps z) :
    ∀ (zones : List Int) (active : AThr) (acc : List (Int × ZoneResult)),
      (assocGet acc z = some ⟨100, "none", 0⟩ ∨ z ∈ zones) →
      ∀ a' res, computeZoneSpeedsAux speed temps zones active acc = .ok (a', res) →
        assocGet res z = some ⟨100, "none", 0⟩ := by
  intro zones
  induction zones with
  | nil =>
      intro active acc hd a' res hok
      rcases hd with hd | hd
      · have hinj := Except.ok.inj hok
        have hres : acc = res := congrArg Prod.snd hinj
        rw [← hres]
        exact hd
      · cases hd
  | cons z1 rest ih =>
      intro active acc hd a' res hok
      simp only [computeZoneSpeedsAux] at hok
      cases hpz : processZone speed active temps z1 with
      | error a => rw [hpz] at hok; cases hok
      | ok pr =>
          obtain ⟨a1, r⟩ := pr
          rw [hpz] at hok
          by_cases hz1 : z1 = z
          · subst hz1
            have hcand : zoneCandidates speed active temps z1 = .ok [] :=
              zoneCandidates_nil speed active z1 temps hnone
            have hr : r = ⟨100, "none", 0⟩ := by
              simp only [processZone, hcand] at hpz
              exact (Prod.mk.injEq _ _ _ _ ▸ (Except.ok.inj hpz)).2.symm ▸ rfl
            apply ih a1 (assocSet acc z1 r) _ a' res hok
            left
            rw [hr]
            exact assocGet_assocSet_self _ _ _
          · apply ih a1 (assocSet acc z1 r) _ a' res hok
            rcases hd with hd | hd
            · left
              rw [assocGet_assocSet_ne _ _ _ _ (fun he => hz1 he.symm)]
              exact hd
            · right
              rcases List.mem_cons.mp hd with he | he
              · exact absurd he.symm hz1
              · exact he

/-- C8: a zone for which no (device_class, index) of the reading set
resolves to an enabled curve gets the fail-safe decision
`(100, "none", 0)` — speed 100, the maximum, not a minimum. -/
theorem C8_no_candidates_full_speed (speed : FanSpeed.Config) (zones : List Int)
    (active : AThr) (temps : Temps) (z : Int) (hz : z ∈ zones)
    (hnone : noneResolves speed temps z) (a' : AThr) (res : List (Int × ZoneResult))
    (hok : compute_zone_speeds speed zones active temps = .ok (a', res)) :
    assocGet res z = some ⟨100, "none", 0⟩ :=
  computeZoneSpeedsAux_no_candidates speed temps z hnone zones active []
    (Or.inr hz) a' res hok

/-- C8 witness: an empty mapping table with one reporting device — both
zones are decided at 100%. -/
theorem C8_witness :
    assocGet [(0, ⟨100, "none", 0⟩), (1, (⟨100, "none", 0⟩ : ZoneResult))] (0 : Int) =
      some ⟨100, "none", 0⟩ :=
  C8_no_candidates_full_speed ⟨5, []⟩ [0, 1] [] [("cpu", some [50])] 0 (by decide)
    (by decide) [] [(0, ⟨100, "none", 0⟩), (1, ⟨100, "none", 0⟩)] (by decide)

theorem writeZones_fail (hw : HardwareModel) :
    ∀ (zs : List (Int × ZoneResult)) (active : AThr) (cmds : List (Int × Int)),
      (∃ zr ∈ zs, hw.writeOk zr.1 zr.2.speed = false) →
      ∃ cmds', writeZones hw zs active cmds = .ok [] true cmds' := by
  intro zs
  induction zs with
  | nil =>
      intro active cmds h
      rcases h with ⟨zr, hzr, _⟩
      cases hzr
  | cons zr0 rest ih =>
      intro active cmds h
      obtain ⟨z, r⟩ := zr0
      by_cases hwk : hw.writeOk z r.speed
      · have hrest : ∃ zr ∈ rest, hw.writeOk zr.1 zr.2.speed = false := by
          rcases h with ⟨zr, hzr, hf⟩
          rcases List.mem_cons.mp hzr with rfl | hzr'
          · rw [hwk] at hf
            cases hf
          · exact ⟨zr, hzr', hf⟩
        simpa only [writeZones, if_pos hwk] using
          ih active (cmds ++ [(z, r.speed)]) hrest
      · exact ⟨cmds, by simp only [writeZones, if_neg hwk]⟩

/-- C3 (amended): an acquisition failure or any zone-write failure
commands fail-safe AND clears all ActiveThreshold latch state; an
unhandled exception escaping `control_loop` commands fail-safe but
RETAINS the latch map as it stood at the raise (the `run` handler does
not clear it). -/
theorem C3_amended (hw : HardwareModel) (speed : FanSpeed.Config) (active : AThr) :
    (hw.temps = none → runIteration hw speed active = ([], true)) ∧
    (∀ temps a1 zs, hw.temps = some temps →
      compute_zone_speeds speed hw.zones active temps = .ok (a1, zs) →
      (∃ zr ∈ zs, hw.writeOk zr.1 zr.2.speed = false) →
      runIteration hw speed active = ([], true)) ∧
    (∀ temps aR, hw.temps = some temps →
      compute_zone_speeds speed hw.zones active temps = .error aR →
      runIteration hw speed active = (aR, true)) := by
  refine ⟨?_, ?_, ?_⟩
  · intro h
    simp [runIteration, control_loop, h]
  · intro temps a1 zs htemps hcomp hfail
    rcases writeZones_fail hw zs a1 [] hfail with ⟨cmds', hwz⟩
    simp [runIteration, control_loop, htemps, hcomp, hwz]
  · intro temps aR htemps hcomp
    simp [runIteration, control_loop, htemps, hcomp]

/-- C3 witness: the three failure classes at concrete inputs —
acquisition failure and write failure clear the latch; an exception
(empty curve ⇒ IndexError in lookup) fail-safes with latch retained. -/
theorem C3_witness :
    runIteration ⟨[0], none, fun _ _ => true⟩
      ⟨5, [(("a", -1, -1), some [⟨40, 15, some 5⟩, ⟨70, 50, some 5⟩])]⟩
      [(("a", 0, 0), 70)] = ([], true) ∧
    runIteration ⟨[0], some [("a", some [75])], fun _ _ => false⟩
      ⟨5, [(("a", -1, -1), some [⟨40, 15, some 5⟩, ⟨70, 50, some 5⟩])]⟩
      [(("a", 0, 0), 70)] = ([], true) ∧
    runIteration ⟨[0], some [("x", some [10])], fun _ _ => true⟩
      ⟨5, [(("x", -1, -1), some [])]⟩ [(("y", 0, 0), 50)] = ([(("y", 0, 0), 50)], true) :=
  ⟨(C3_amended ⟨[0], none, fun _ _ => true⟩
      ⟨5, [(("a", -1, -1), some [⟨40, 15, some 5⟩, ⟨70, 50, some 5⟩])]⟩
      [(("a", 0, 0), 70)]).1 rfl,
   (C3_amended ⟨[0], some [("a", some [75])], fun _ _ => false⟩
      ⟨5, [(("a", -1, -1), some [⟨40, 15, some 5⟩, ⟨70, 50, some 5⟩])]⟩
      [(("a", 0, 0), 70)]).2.1 [("a", some [75])] [(("a", 0, 0), 70)]
      [(0, ⟨50, "A0", 75⟩)] rfl (by decide) (by decide),
   (C3_amended ⟨[0], some [("x", some [10])], fun _ _ => true⟩
      ⟨5, [(("x", -1, -1), some [])]⟩ [(("y", 0, 0), 50)]).2.2 [("x", some [10])]
      [(("y", 0, 0), 50)] rfl (by decide)⟩

/-- C3 counterexample: an iteration that raises (empty curve ⇒
IndexError inside `lookup`) triggers fail-safe, but the latch map is NOT
cleared: it still holds the pre-existing entry, refuting "the latch map
is empty after an iteration that raised an unexpected exception". -/
theorem C3_counterexample :
    runIteration ⟨[0], some [("x", some [10])], fun _ _ => true⟩
      ⟨5, [(("x", -1, -1), some [])]⟩ [(("y", 0, 0), 50)] = ([(("y", 0, 0), 50)], true) ∧
    [((("y", 0, 0) : MappingKey), (50 : ℚ))] ≠ ([] : AThr) := by
  refine ⟨by decide, by decide⟩

/-- C6 (amended): `_check_mappings` flags a device type referenced by an
enabled mapping iff that type is absent as a *key* of the reading dict;
a key present with the unavailable marker (`None` reading) passes the
check.  Startup therefore proceeds iff every enabled-referenced type
appears as a key, readings or not. -/
theorem C6_amended (speeds : SpeedTable) (temps : Temps) :
    (∀ dt : String, dt ∈ check_mappings speeds temps ↔
      (dt ∈ mappingTypes speeds ∧ ∀ kv ∈ temps, kv.1 ≠ dt)) ∧
    (check_mappings speeds temps = [] ↔
      ∀ dt ∈ mappingTypes speeds, ∃ kv ∈ temps, kv.1 = dt) := by
  constructor
  · intro dt
    simp [check_mappings, List.mem_filter, List.mem_insertionSort, List.any_eq_true]
  · rw [check_mappings, List.filter_eq_nil_iff]
    constructor
    · intro h dt hdt
      have h' := h dt ((List.mem_insertionSort _).mpr hdt)
      simpa [List.any_eq_true] using h'
    · intro h dt hdt
      have h' := h dt ((List.mem_insertionSort _).mp hdt)
      simpa [List.any_eq_true] using h'

/-- C6 witness: a type referenced by an enabled mapping that is not a key
of the reading dict is reported missing (fatal at startup). -/
theorem C6_witness :
    "hdd" ∈ check_mappings [(("hdd", -1, 0), some [⟨0, 10, none⟩, ⟨50, 99, none⟩])]
      [("cpu", some [40])] :=
  ((C6_amended [(("hdd", -1, 0), some [⟨0, 10, none⟩, ⟨50, 99, none⟩])]
    [("cpu", some [40])]).1 "hdd").mpr ⟨by decide, by decide⟩

/-- C6 counterexample: the class "hdd" is referenced by an enabled
mapping and its sensor reports only the unavailable marker (`None`) at
startup, yet `_check_mappings` reports nothing missing and startup
proceeds — refuting "a class reported only as unavailable is fatal". -/
theorem C6_counterexample :
    mappingTypes [(("hdd", -1, 0), some [⟨0, 10, none⟩, ⟨50, 99, none⟩])] = ["hdd"] ∧
    assocGet ([("hdd", none)] : Temps) "hdd" = some none ∧
    check_mappings [(("hdd", -1, 0), some [⟨0, 10, none⟩, ⟨50, 99, none⟩])]
      [("hdd", none)] = [] ∧
    startupOk ⟨[0], some [("hdd", none)], fun _ _ => true⟩
      [(("hdd", -1, 0), some [⟨0, 10, none⟩, ⟨50, 99, none⟩])] = true := by
  refine ⟨by decide, by decide, by decide, by decide⟩

theorem exc_ok_bind {ε α β : Type} (a : α) (f : α → Except ε β) :
    (Except.ok a >>= f) = f a := rfl

theorem exc_err_bind {ε α β : Type} (e : ε) (f : α → Except ε β) :
    ((Except.error e : Except ε α) >>= f) = Except.error e := rfl

theorem parsePoint_valid (part : List Char) (p : MappingPoint)
    (h : parsePoint part = .ok p) :
    (0 ≤ p.speed ∧ p.speed ≤ 100) ∧ ∀ hq ∈ p.hyst, (0 : ℚ) ≤ hq := by
  unfold parsePoint at h
  split at h
  · cases h
  · cases ht : toFloat ((splitChar ':' part).getD 0 []) with
    | error e => rw [ht, exc_err_bind] at h; cases h
    | ok temp =>
        rw [ht, exc_ok_bind] at h
        cases hs : toFloat ((splitChar ':' part).getD 1 []) with
        | error e => rw [hs, exc_err_bind] at h; cases h
        | ok speed =>
            rw [hs, exc_ok_bind] at h
            cases hhy : parseHystPiece (splitChar ':' part) with
            | error e => rw [hhy, exc_err_bind] at h; cases h
            | ok hyst =>
                rw [hhy, exc_ok_bind] at h
                split at h
                · cases h
                · rename_i hrange
                  push_neg at hrange
                  split at h
                  · cases h
                  · rename_i hgd
                    push_neg at hgd
                    cases h
                    refine ⟨⟨hrange.1, hrange.2⟩, ?_⟩
                    intro hq hmem
                    cases hyst with
                    | none => cases hmem
                    | some hv =>
                        cases hmem
                        simpa using hgd

theorem parsePoints_valid : ∀ (parts : List (List Char)) (pts : List MappingPoint),
    parsePoints parts = .ok pts →
    ∀ p ∈ pts, (0 ≤ p.speed ∧ p.speed ≤ 100) ∧ ∀ hq ∈ p.hyst, (0 : ℚ) ≤ hq := by
  intro parts
  induction parts with
  | nil =>
      intro pts h p hp
      cases h
      cases hp
  | cons part rest ih =>
      intro pts h p hp
      unfold parsePoints at h
      split at h
      · exact ih pts h p hp
      · cases hpt : parsePoint (strip part) with
        | error e => rw [hpt, exc_err_bind] at h; cases h
        | ok pt =>
            rw [hpt, exc_ok_bind] at h
            cases hrest : parsePoints rest with
            | error e => rw [hrest, exc_err_bind] at h; cases h
            | ok pts' =>
                rw [hrest, exc_ok_bind] at h
                cases h
                rcases List.mem_cons.mp hp with rfl | hp'
                · exact parsePoint_valid (strip part) p hpt
                · exact ih pts' hrest p hp'

/-- C9: the curve-value parser maps the empty specification to the
disabled-marker; accepts comma-separated `temp:speed[:hyst]` tokens and
sorts the result ascending by threshold regardless of input order; every
accepted curve has ≥ 2 points, speeds in [0,100] and non-negative
hysteresis; and each malformed input — wrong arity, out-of-range speed,
negative hysteresis, unparsable number, a single point — is rejected
with the error naming the offending datum. -/
theorem C9_parse_speeds :
    parse_speeds_value "".data = .ok none ∧
    parse_speeds_value "40:15,60:30,80:100".data =
      .ok (some [⟨40, 15, none⟩, ⟨60, 30, none⟩, ⟨80, 100, none⟩]) ∧
    parse_speeds_value "60:30,40:15,80:100".data =
      .ok (some [⟨40, 15, none⟩, ⟨60, 30, none⟩, ⟨80, 100, none⟩]) ∧
    (∀ (v : List Char) (pts : List MappingPoint),
      parse_speeds_value v = .ok (some pts) →
      2 ≤ pts.length ∧ List.Sorted pointLe pts ∧
      ∀ p ∈ pts, (0 ≤ p.speed ∧ p.speed ≤ 100) ∧ ∀ hq ∈ p.hyst, (0 : ℚ) ≤ hq) ∧
    parse_speeds_value "40:15".data = .error .tooFewPoints ∧
    parse_speeds_value "40:150,60:30".data = .error (.invalidSpeed 150) ∧
    parse_speeds_value "40:15:-1,60:30".data = .error (.invalidHysteresis (-1)) ∧
    parse_speeds_value "40,60:30".data = .error (.invalidPointFormat "40".data) ∧
    parse_speeds_value "4x:15,60:30".data = .error (.invalidNumber "4x".data) := by
  refine ⟨by decide, by decide, by decide, ?_, by decide, by decide, by decide, by decide,
    by decide⟩
  intro v pts h
  unfold parse_speeds_value at h
  split at h
  · cases h
  · cases hpp : parsePoints (splitChar ',' (strip v)) with
    | error e => rw [hpp, exc_err_bind] at h; cases h
    | ok points =>
        rw [hpp, exc_ok_bind] at h
        split at h
        · cases h
        · cases h
          have hperm := List.perm_insertionSort pointLe points
          refine ⟨by rw [hperm.length_eq]; omega, List.sorted_insertionSort pointLe points, ?_⟩
          intro p hp
          exact parsePoints_valid _ points hpp p ((List.mem_insertionSort _).mp hp)

/-- C9 witness: the validity part applied to the unordered input
"60:30,40:15", whose parse is the ascending two-point curve. -/
theorem C9_witness :
    2 ≤ ([⟨40, 15, none⟩, ⟨60, 30, none⟩] : List MappingPoint).length ∧
    List.Sorted pointLe [⟨40, 15, none⟩, ⟨60, 30, none⟩] ∧
    ∀ p ∈ ([⟨40, 15, none⟩, ⟨60, 30, none⟩] : List MappingPoint),
      (0 ≤ p.speed ∧ p.speed ≤ 100) ∧ ∀ hq ∈ p.hyst, (0 : ℚ) ≤ hq :=
  C9_parse_speeds.2.2.2.1 "60:30,40:15".data [⟨40, 15, none⟩, ⟨60, 30, none⟩] (by decide)
